import Mathlib

/-!
Shallow embedding of the recording-orchestration core of `streamrecorder-ts`.

JavaScript strings are modelled by Lean `String`; the JS string primitives the
source uses (`trim`, `toLowerCase`, `slice`, `startsWith`) are given explicit
models over `String.data`, restricted to the ASCII fragment the program
manipulates.  JS numbers appearing here are small integers and are modelled by
`Nat`/`Int`.  Filesystem state is a list of existing paths; subprocess and
JSON-parse outcomes are explicit inputs.
-/

namespace StreamRecorder

/-- Decimal digit test; models the regex class `\d` used in part_007:3. -/
def isDigitChar (c : Char) : Bool := '0' ≤ c && c ≤ '9'

/-- Whitespace as removed by JavaScript `String.prototype.trim` (ASCII fragment). -/
def isJsWs (c : Char) : Bool :=
  c == ' ' || c == '\t' || c == '\n' || c == '\r' || c == '\x0b' || c == '\x0c'

/-- Models JavaScript `String.prototype.trim` (ASCII whitespace fragment). -/
def jsTrim (s : String) : String :=
  ⟨((s.data.dropWhile isJsWs).reverse.dropWhile isJsWs).reverse⟩

/-- Models JavaScript `String.prototype.toLowerCase` on the ASCII fragment
(`Char.toLower` lowercases exactly the ASCII uppercase letters). -/
def jsToLower (s : String) : String := ⟨s.data.map Char.toLower⟩

/-- Numeric value of a decimal digit string; models `Number.parseInt(_, 10)`
applied to a string of digits (all uses in the source are 2-4 digits long). -/
def digitsToNat (l : List Char) : Nat :=
  l.foldl (fun acc c => acc * 10 + (c.toNat - 48)) 0

/-- Stable insertion used by `jsSort`: `a` is placed before the first element
`b` of the already-sorted tail with `le a b`. -/
def sortInsert {α : Type} (le : α → α → Bool) (a : α) : List α → List α
  | [] => [a]
  | b :: l => if le a b then a :: b :: l else b :: sortInsert le a l

/-- Models `Array.prototype.sort` with a consistent comparator `cmp`
(a stable sort, as required by the ECMAScript specification); the argument
`le a b` stands for `cmp(a, b) <= 0`. -/
def jsSort {α : Type} (le : α → α → Bool) : List α → List α
  | [] => []
  | a :: l => sortInsert le a (jsSort le l)

/-- `QualityCandidate` of `shared/types.ts`: a parsed quality label. -/
structure QualityCandidate where
  label : String
  height : Nat
  fps : Nat
deriving DecidableEq, Repr

/-- Models `parseQuality` (part_007:59-78): take the part of the label before
the first `,`/`_`/`+`, trim it, and match it against the anchored regex
`^(\d{3,4})p(?:(\d{2,3}))?` case-insensitively.  Because the height digits are
a maximal digit run, the regex matches exactly when that run has length 3 or 4
and is followed by `p`/`P`; the greedy optional fps group takes 3, else 2,
digits and otherwise defaults to 30. -/
def parseQuality (value : String) : Option QualityCandidate :=
  let cleaned := jsTrim ⟨value.data.takeWhile (fun c => !(c == ',' || c == '_' || c == '+'))⟩
  let ds := cleaned.data.takeWhile isDigitChar
  let rest := cleaned.data.dropWhile isDigitChar
  if 3 ≤ ds.length ∧ ds.length ≤ 4 then
    match rest with
    | [] => none
    | p :: afterP =>
      if p == 'p' || p == 'P' then
        let fd := afterP.takeWhile isDigitChar
        let fps := if 3 ≤ fd.length then digitsToNat (fd.take 3)
                   else if fd.length = 2 then digitsToNat fd
                   else 30
        some { label := value, height := digitsToNat ds, fps := fps }
      else none
  else none

/-- Models `selectQuality` (part_007:5-57). -/
def selectQuality (requested : String) (available : List String) : String :=
  if available.length = 0 then
    (if requested = "" then "best" else requested)
  else
    let normalizedRequested := jsToLower (jsTrim requested)
    if normalizedRequested = "" then "best"
    else if normalizedRequested = "best" ∨ normalizedRequested = "worst" then
      normalizedRequested
    else
      match available.find? (fun q => jsToLower q == normalizedRequested) with
      | some exact => exact
      | none =>
        let requestedParsed := parseQuality normalizedRequested
        let parsed := available.filterMap parseQuality
        let fallback := if available.contains "best" then "best" else available.head?.getD "best"
        match requestedParsed with
        | none => fallback
        | some rp =>
          if parsed.length = 0 then fallback
          else
            let lowerOrEqual := parsed.filter (fun c => c.height ≤ rp.height)
            if 0 < lowerOrEqual.length then
              let bestLowerHeight := (lowerOrEqual.map (fun c => c.height)).foldl Nat.max 0
              let sameHeight := lowerOrEqual.filter (fun c => c.height == bestLowerHeight)
              match sameHeight.find? (fun c => c.fps == 60) with
              | some sixty => sixty.label
              | none =>
                match (jsSort (fun a b => b.fps ≤ a.fps) sameHeight).head? with
                | some c => c.label
                | none => match sameHeight.head? with
                          | some c => c.label
                          | none => "best"
            else
              let le : QualityCandidate → QualityCandidate → Bool := fun a b =>
                let diffA := Nat.dist a.height rp.height
                let diffB := Nat.dist b.height rp.height
                if diffA ≠ diffB then decide (diffA < diffB)
                else if a.fps ≠ b.fps then decide (b.fps < a.fps)
                else decide (b.height ≤ a.height)
              match (jsSort le parsed).head? with
              | some c => c.label
              | none => "best"

/-- C2 counterexample: the requested string "best" case-insensitively equals the
available label "BEST", so the claim demands that `selectQuality` return "BEST"
byte-for-byte; the code instead hits the best/worst branch first and returns the
normalized "best", which is not even an element of the available list. -/
theorem selectQuality_ci_match_claim_false :
    jsToLower "BEST" = jsToLower "best" ∧
      selectQuality "best" ["BEST"] = "best" ∧
      "best" ∉ (["BEST"] : List String) := by
  refine ⟨by decide, by decide, by decide⟩

/-- C2 (amended): when the trimmed, lowercased requested string is not empty and
not "best"/"worst", and some available label lowercases to it, `selectQuality`
returns an available label (byte-for-byte as given in the list) that matches the
requested string case-insensitively. -/
theorem selectQuality_exact_ci_match (requested : String) (available : List String)
    (l : String) (hmem : l ∈ available)
    (hci : jsToLower l = jsToLower (jsTrim requested))
    (hne : jsToLower (jsTrim requested) ≠ "")
    (hb : jsToLower (jsTrim requested) ≠ "best")
    (hw : jsToLower (jsTrim requested) ≠ "worst") :
    selectQuality requested available ∈ available ∧
      jsToLower (selectQuality requested available) = jsToLower (jsTrim requested) := by
  have hlen : available.length ≠ 0 := by
    cases available with
    | nil => cases hmem
    | cons a t => simp
  obtain ⟨x, hx⟩ : ∃ x,
      available.find? (fun q => jsToLower q == jsToLower (jsTrim requested)) = some x := by
    cases hf : available.find? (fun q => jsToLower q == jsToLower (jsTrim requested)) with
    | some x => exact ⟨x, rfl⟩
    | none =>
      have := List.find?_eq_none.mp hf l hmem
      simp [hci] at this
  have hxmem := List.mem_of_find?_eq_some hx
  have hxlow : jsToLower x = jsToLower (jsTrim requested) := by
    have := List.find?_some hx
    simpa using this
  unfold selectQuality
  simp only [if_neg hlen, if_neg hne, hx]
  rw [if_neg]
  · exact ⟨hxmem, hxlow⟩
  · rintro (h | h) <;> [exact hb h; exact hw h]

/-- C2 witness: requested "720P" and available list ["480p", "720p"]. -/
theorem selectQuality_exact_ci_match_witness :
    selectQuality "720P" ["480p", "720p"] ∈ (["480p", "720p"] : List String) ∧
      jsToLower (selectQuality "720P" ["480p", "720p"]) = jsToLower (jsTrim "720P") :=
  selectQuality_exact_ci_match "720P" ["480p", "720p"] "720p"
    (by decide) (by decide) (by decide) (by decide) (by decide)

/-- C3 counterexample: the trimmed, lowercased form of "BEST" is "best", the
available list is non-empty, yet `selectQuality` returns the normalized variant
"best" rather than the requested string "BEST" unchanged. -/
theorem selectQuality_best_unchanged_claim_false :
    jsToLower (jsTrim "BEST") = "best" ∧
      selectQuality "BEST" ["720p"] = "best" ∧
      selectQuality "BEST" ["720p"] ≠ "BEST" := by
  refine ⟨by decide, by decide, by decide⟩

/-- C3 (amended): for every requested string whose trimmed, lowercased form is
"best" or "worst" and every non-empty available list, `selectQuality` returns
that trimmed, lowercased form (so the requested string itself only when it was
already normalized). -/
theorem selectQuality_best_worst (requested : String) (available : List String)
    (hav : available ≠ [])
    (h : jsToLower (jsTrim requested) = "best" ∨ jsToLower (jsTrim requested) = "worst") :
    selectQuality requested available = jsToLower (jsTrim requested) := by
  have hlen : available.length ≠ 0 := fun h0 => hav (List.length_eq_zero.mp h0)
  have hne : jsToLower (jsTrim requested) ≠ "" := by
    rcases h with h | h <;> simp [h]
  unfold selectQuality
  simp only [if_neg hlen, if_neg hne]
  exact if_pos h

/-- C3 witness: requested " Worst " over a one-element available list. -/
theorem selectQuality_best_worst_witness :
    selectQuality " Worst " ["720p"] = jsToLower (jsTrim " Worst ") :=
  selectQuality_best_worst " Worst " ["720p"] (by decide) (by decide)

/-- C4: the five concrete `selectQuality` equalities stated in the spec hold of
the code. -/
theorem selectQuality_spec_examples :
    selectQuality "720p" ["1080p", "720p", "480p"] = "720p" ∧
      selectQuality "1080p" ["720p", "480p"] = "720p" ∧
      selectQuality "1080p" ["720p", "720p60", "480p"] = "720p60" ∧
      selectQuality "360p" ["720p", "1080p"] = "720p" ∧
      selectQuality "source" ["best", "720p", "worst"] = "best" := by
  refine ⟨by decide, by decide, by decide, by decide, by decide⟩

/-- `PostprocessDecisionInput` (part_009:1-6); `exitCode` and `signal` are
nullable, a signal name is carried as a string. -/
structure PostprocessDecisionInput where
  enabled : Bool
  isStopping : Bool
  exitCode : Option Int
  signal : Option String
deriving DecidableEq, Repr

/-- Models `shouldPostprocessRecording` (part_009:8-23). -/
def shouldPostprocessRecording (input : PostprocessDecisionInput) : Bool :=
  if !input.enabled || input.isStopping then false
  else if input.exitCode == some 0 then true
  else if input.signal.isSome then true
  else match input.exitCode with
       | some c => decide (128 ≤ c)
       | none => false

/-- C5: `shouldPostprocessRecording` returns true exactly when postprocessing is
enabled, the daemon is not stopping, and the subprocess ended with exit code 0,
or with a non-null signal, or with an exit code at least 128 and no signal. -/
theorem shouldPostprocessRecording_iff (i : PostprocessDecisionInput) :
    shouldPostprocessRecording i = true ↔
      i.enabled = true ∧ i.isStopping = false ∧
        (i.exitCode = some 0 ∨ i.signal ≠ none ∨
          ((∃ c, i.exitCode = some c ∧ 128 ≤ c) ∧ i.signal = none)) := by
  obtain ⟨e, st, ec, sg⟩ := i
  cases e <;> cases st <;> cases sg <;> rcases ec with _ | c <;>
    simp [shouldPostprocessRecording]

/-- C10: when both the exit code and the signal are null,
`shouldPostprocessRecording` returns false regardless of the enabled and
stopping flags. -/
theorem shouldPostprocessRecording_null_null (enabled isStopping : Bool) :
    shouldPostprocessRecording ⟨enabled, isStopping, none, none⟩ = false := by
  cases enabled <;> cases isStopping <;> rfl

/-- A JavaScript value as produced by `JSON.parse`. -/
inductive Js where
  | null
  | bool (b : Bool)
  | num (n : Int)
  | str (s : String)
  | arr (elems : List Js)
  | obj (fields : List (String × Js))

/-- JavaScript truthiness of a parsed JSON value. -/
def jsTruthy : Js → Bool
  | .null => false
  | .bool b => b
  | .num n => n != 0
  | .str s => s != ""
  | .arr _ => true
  | .obj _ => true

/-- Whether `typeof v` is "object" (true for null, arrays and plain objects). -/
def jsTypeofObject : Js → Bool
  | .null => true
  | .arr _ => true
  | .obj _ => true
  | _ => false

/-- The JavaScript `in` operator on a parsed JSON value: own property names;
the own keys of an array are numeric indices, so a name like "streams" is never
`in` a parsed array. -/
def jsHasKey (v : Js) (k : String) : Bool :=
  match v with
  | .obj fields => fields.any (fun f => f.fst == k)
  | _ => false

/-- Property access `v[k]`; JavaScript `undefined` is folded into `.null`,
which is sound here because every use is re-checked for truthiness. -/
def jsGetKey (v : Js) (k : String) : Js :=
  match v with
  | .obj fields =>
    match fields.find? (fun f => f.fst == k) with
    | some f => f.snd
    | none => .null
  | _ => .null

/-- `Object.keys` of a parsed JSON object, in insertion order. -/
def jsObjectKeys : Js → List String
  | .obj fields => fields.map Prod.fst
  | _ => []

/-- The value `runCommand` resolves with (adapter.ts:80-125). -/
structure CommandResult where
  exitCode : Int
  stdout : String
  stderr : String
deriving DecidableEq, Repr

/-- One subprocess run as observed by the event handlers of `runCommand`: either the
`close` event fires, with `timedOut` recording whether the timeout killed the
child first (adapter.ts:94-97), or the `error` event fires (e.g. spawn
failure) after accumulating some stdout. -/
inductive CommandOutcome where
  | closed (timedOut : Bool) (code : Option Int) (stdout stderr : String)
  | errored (message : String) (stdout : String)
deriving DecidableEq, Repr

/-- Models `runCommand` (adapter.ts:80-125): the promise never rejects; a
timeout is reported as exit code 124 with "probe timeout" appended to stderr, a
null close code becomes exit code 1, and the `error` event becomes exit code 1
with the error message as stderr. -/
def runCommand : CommandOutcome → CommandResult
  | .closed timedOut code out err =>
      { exitCode := if timedOut then 124 else code.getD 1
        stdout := out
        stderr := if timedOut then err ++ "\nprobe timeout" else err }
  | .errored msg out => { exitCode := 1, stdout := out, stderr := msg }

/-- `ProbeResult` (shared/types.ts): liveness, available quality labels,
optional raw parsed payload, optional error text. -/
structure ProbeResult where
  isLive : Bool
  availableQualities : List String
  rawJson : Option Js
  error : Option String

/-- The last two returns of `probe` (adapter.ts:46-59), reached when stdout did
not parse to an object with a "streams" property. -/
def probeNoStreams (cmd : CommandResult) (parsed : Option Js) : ProbeResult :=
  if cmd.exitCode = 0 then
    { isLive := false, availableQualities := [], rawJson := parsed, error := none }
  else
    { isLive := false, availableQualities := [], rawJson := none
      error := some (if jsTrim cmd.stderr = ""
                     then "streamlink exited with " ++ toString cmd.exitCode
                     else jsTrim cmd.stderr) }

/-- Models `StreamlinkAdapter.probe` (adapter.ts:23-60) as a function of the
`runCommand` result and of `parsed`, which stands for `safeParseJson(stdout)`
(adapter.ts:69-78): `none` when stdout is empty or not valid JSON, otherwise
the parsed value.  `JSON.parse` is a platform builtin, so its result is an
input of the model rather than a definition in it. -/
def probe (cmd : CommandResult) (parsed : Option Js) : ProbeResult :=
  match parsed with
  | some v =>
    if jsTruthy v && jsTypeofObject v && jsHasKey v "streams" then
      let streams := jsGetKey v "streams"
      let qualities := if jsTruthy streams && jsTypeofObject streams
                       then jsObjectKeys streams else []
      { isLive := 0 < qualities.length
        availableQualities := qualities
        rawJson := some v
        error := if cmd.exitCode = 0 then none
                 else some (if jsTrim cmd.stderr = ""
                            then "streamlink exited with " ++ toString cmd.exitCode
                            else jsTrim cmd.stderr) }
    else probeNoStreams cmd parsed
  | none => probeNoStreams cmd parsed

/-- Trimming a string that ends in the non-whitespace text "probe timeout"
keeps that text as a suffix. -/
theorem jsTrim_append_probe_timeout (s : String) :
    ∃ pre : String, jsTrim (s ++ "\nprobe timeout") = pre ++ "probe timeout" := by
  obtain ⟨B, hB⟩ : ∃ B, List.dropWhile isJsWs ((s ++ "\nprobe timeout").data)
      = B ++ "probe timeout".data := by
    rw [String.data_append]
    have hnt : ("\nprobe timeout".data) = '\n' :: "probe timeout".data := rfl
    rw [hnt, List.dropWhile_append]
    by_cases h : (List.dropWhile isJsWs s.data).isEmpty
    · refine ⟨[], ?_⟩
      simp only [h, if_true]
      rfl
    · refine ⟨List.dropWhile isJsWs s.data ++ ['\n'], ?_⟩
      simp only [h, if_false]
      simp
  refine ⟨⟨B⟩, ?_⟩
  have hrev : List.dropWhile isJsWs (B ++ "probe timeout".data).reverse
      = (B ++ "probe timeout".data).reverse := by
    rw [List.reverse_append, List.dropWhile_append]
    have h1 : List.dropWhile isJsWs ("probe timeout".data).reverse
        = ("probe timeout".data).reverse := rfl
    rw [h1]
    have h2 : (("probe timeout".data).reverse).isEmpty = false := rfl
    rw [h2]
    simp
  unfold jsTrim
  rw [hB, hrev, List.reverse_reverse]
  apply String.ext
  simp [String.data_append]

/-- The error field of a probe result, in every branch of `probe`: absent
exactly on exit code 0, otherwise the trimmed stderr, or a generic message when
that is empty. -/
theorem probe_error_eq (cmd : CommandResult) (parsed : Option Js) :
    (probe cmd parsed).error
      = if cmd.exitCode = 0 then none
        else some (if jsTrim cmd.stderr = ""
                   then "streamlink exited with " ++ toString cmd.exitCode
                   else jsTrim cmd.stderr) := by
  unfold probe probeNoStreams
  cases parsed with
  | none => by_cases h : cmd.exitCode = 0 <;> simp [h]
  | some v =>
    by_cases hc : (jsTruthy v && jsTypeofObject v && jsHasKey v "streams") = true <;>
      by_cases h : cmd.exitCode = 0 <;> simp [hc, h]

/-- The liveness flag of a probe result is true exactly when the list of
recognized qualities is non-empty, in every branch of `probe`. -/
theorem probe_isLive_eq (cmd : CommandResult) (parsed : Option Js) :
    (probe cmd parsed).isLive = !(probe cmd parsed).availableQualities.isEmpty := by
  unfold probe probeNoStreams
  cases parsed with
  | none => by_cases h : cmd.exitCode = 0 <;> simp [h]
  | some v =>
    by_cases hc : (jsTruthy v && jsTypeofObject v && jsHasKey v "streams") = true
    · simp only [hc, if_true]
      cases hq : (if jsTruthy (jsGetKey v "streams") && jsTypeofObject (jsGetKey v "streams")
                  then jsObjectKeys (jsGetKey v "streams") else []) with
      | nil => simp [hq]
      | cons a l => simp [hq]
    · by_cases h : cmd.exitCode = 0 <;> simp [hc, h]

/-- C7 counterexample: when the probe times out after the tool has already
printed a complete stream listing on stdout, the result reports isLive = true,
not false as the claim demands for every timed-out probe (the error does still
note the timeout). -/
theorem probe_timeout_claim_false :
    (probe (runCommand (.closed true none
        "\x7b\"streams\":\x7b\"best\":\x7b\x7d\x7d\x7d" ""))
        (some (.obj [("streams", .obj [("best", .obj [])])]))).isLive = true ∧
      (probe (runCommand (.closed true none
        "\x7b\"streams\":\x7b\"best\":\x7b\x7d\x7d\x7d" ""))
        (some (.obj [("streams", .obj [("best", .obj [])])]))).error
        = some "probe timeout" := by
  refine ⟨rfl, ?_⟩
  rw [probe_error_eq]
  rfl

/-- C7 (amended): `probe` is a total function of the subprocess outcome — every
failure is encoded in the result rather than thrown: the result is live exactly
when a non-empty stream listing was recognized, it carries an error string
exactly when the tool did not exit 0 (in particular the error of a timed-out probe
ends in "probe timeout"), and a clean exit-0 run — whether or not a stream
listing was recognized — carries no error. -/
theorem probe_failure_encoding (outcome : CommandOutcome) (parsed : Option Js)
    (code : Option Int) (out err : String) :
    ((probe (runCommand outcome) parsed).isLive
        = !((probe (runCommand outcome) parsed).availableQualities.isEmpty))
    ∧ ((probe (runCommand outcome) parsed).error.isSome
        = !((runCommand outcome).exitCode == 0))
    ∧ (∃ pre, (probe (runCommand (.closed true code out err)) parsed).error
        = some (pre ++ "probe timeout"))
    ∧ ((probe (runCommand (.closed false (some 0) out err)) parsed).error = none) := by
  refine ⟨probe_isLive_eq .., ?_, ?_, ?_⟩
  · rw [probe_error_eq]
    by_cases h : (runCommand outcome).exitCode = 0 <;> simp [h]
  · obtain ⟨pre, hpre⟩ := jsTrim_append_probe_timeout err
    have hstderr : (runCommand (.closed true code out err)).stderr
        = err ++ "\nprobe timeout" := rfl
    have hexit : (runCommand (.closed true code out err)).exitCode = 124 := rfl
    have hne : jsTrim ((runCommand (.closed true code out err)).stderr) ≠ "" := by
      rw [hstderr, hpre]
      intro hcontra
      have hdata := congrArg String.data hcontra
      rw [String.data_append] at hdata
      simp at hdata
    refine ⟨pre, ?_⟩
    rw [probe_error_eq, hexit, if_neg (by norm_num), if_neg hne, hstderr, hpre]
  · rw [probe_error_eq]
    rfl

/-- The filesystem relevant to the remux pipeline, as the list of existing
paths: `fileExists` (utils/fs part_004:20-26) is membership, the path of a created file is added, `unlinkSync` removes the path. -/
def addFile (files : List String) (p : String) : List String :=
  if p ∈ files then files else p :: files

/-- Models `fs.unlinkSync` / `tryUnlink` (daemon.ts:341-347) on the path-set
filesystem: afterwards the path does not exist. -/
def removeFile (files : List String) (p : String) : List String :=
  files.filter (fun q => !(q == p))

/-- Models Node `path.extname` of the given path: the suffix of the basename
starting at its last dot, or empty when the basename has no dot or only a
leading one (basenames consisting solely of dots are not modelled). -/
def extnameOf (s : String) : String :=
  let b := (s.data.reverse.takeWhile (fun c => c ≠ '/')).reverse
  let afterDot := b.reverse.takeWhile (fun c => c ≠ '.')
  if afterDot.length = b.length then ""
  else if b.length - 1 - afterDot.length = 0 then ""
  else ⟨b.drop (b.length - 1 - afterDot.length)⟩

/-- Models `replaceWithMp4Extension` (daemon.ts:349-355). -/
def replaceWithMp4Extension (filePath : String) : String :=
  let ext := extnameOf filePath
  if ext = "" then filePath ++ ".mp4"
  else (⟨filePath.data.take (filePath.data.length - ext.data.length)⟩ : String) ++ ".mp4"

/-- The candidate path `resolveUniquePath` tries for one numeric suffix
(daemon.ts:377). -/
def uniqueCandidate (stem ext : String) (suffix : Nat) : String :=
  stem ++ "_" ++ Nat.repr suffix ++ ext

/-- The search loop of `resolveUniquePath` (daemon.ts:376-382) with explicit
fuel; the caller passes `files.length + 1`, which suffices because the
candidates are pairwise distinct, so the fuel-exhausted base case (returning
the last candidate unchecked) is unreachable along real executions. -/
def resolveUniquePathAux (stem ext : String) (files : List String) :
    Nat → Nat → String
  | 0, suffix => uniqueCandidate stem ext suffix
  | fuel + 1, suffix =>
    let candidate := uniqueCandidate stem ext suffix
    if candidate ∈ files then resolveUniquePathAux stem ext files fuel (suffix + 1)
    else candidate

/-- Models `resolveUniquePath` (daemon.ts:368-383). -/
def resolveUniquePath (basePath : String) (files : List String) : String :=
  if basePath ∈ files then
    let ext := extnameOf basePath
    let stem := if 0 < ext.length
                then (⟨basePath.data.take (basePath.data.length - ext.data.length)⟩ : String)
                else basePath
    resolveUniquePathAux stem ext files (files.length + 1) 1
  else basePath

/-- The observable behaviour of one ffmpeg invocation: whether it exits 0, and
whether on failure it leaves a partial output file behind; on success the
output file exists. -/
structure FfmpegAttempt where
  succeeds : Bool
  leavesOutputOnFailure : Bool
deriving DecidableEq, Repr

/-- Models `runFfmpegRemux` (daemon.ts:280-311) over the path-set filesystem:
try the fast remux; on failure remove any partial output (daemon.ts:292) and
run the tolerant remux, whose own failure propagates (an exception in the
source, here the returned flag). -/
def runFfmpegRemux (fast tolerant : FfmpegAttempt) (outputPath : String)
    (files : List String) : List String × Bool :=
  if fast.succeeds then (addFile files outputPath, true)
  else
    let afterFast := if fast.leavesOutputOnFailure then addFile files outputPath else files
    let afterUnlink := removeFile afterFast outputPath
    if tolerant.succeeds then (addFile afterUnlink outputPath, true)
    else ((if tolerant.leavesOutputOnFailure then addFile afterUnlink outputPath
           else afterUnlink), false)

/-- The filesystem together with the persisted session output path (the row
column `updateRecordingSessionOutputPath` writes). -/
structure RecordingFsState where
  files : List String
  sessionOutput : String
deriving DecidableEq, Repr

/-- Models `postprocessRecordingToMp4` (daemon.ts:253-278): skip when the
recording file is missing; otherwise remux to a de-duplicated sibling `.mp4`
path; on success persist the new path and delete the original; on failure (the
catch block) leave the filesystem as the failed remux left it and the session
row unchanged. -/
def postprocessRecordingToMp4 (fast tolerant : FfmpegAttempt) (outputPath : String)
    (s : RecordingFsState) : RecordingFsState :=
  if outputPath ∈ s.files then
    let mp4Path := resolveUniquePath (replaceWithMp4Extension outputPath) s.files
    match runFfmpegRemux fast tolerant mp4Path s.files with
    | (files2, true) => { files := removeFile files2 outputPath, sessionOutput := mp4Path }
    | (files2, false) => { files := files2, sessionOutput := s.sessionOutput }
  else s

/-- Membership in the path-set filesystem survives creating a file. -/
theorem mem_addFile_of_mem {files : List String} {a : String} (p : String)
    (h : a ∈ files) : a ∈ addFile files p := by
  unfold addFile
  split <;> simp [h]

/-- A created file exists afterwards. -/
theorem mem_addFile_self (files : List String) (p : String) : p ∈ addFile files p := by
  unfold addFile
  split <;> simp_all

/-- Existence after `removeFile`: every path other than the removed one. -/
theorem mem_removeFile_iff {files : List String} {a p : String} :
    a ∈ removeFile files p ↔ a ∈ files ∧ a ≠ p := by
  simp [removeFile, List.mem_filter]

/-- A path other than the remux destination exists after `runFfmpegRemux`
whenever it existed before: the pipeline only ever creates or unlinks the
destination path. -/
theorem runFfmpegRemux_mem_other (fast tolerant : FfmpegAttempt) (outputPath : String)
    (files : List String) {a : String} (ha : a ∈ files) (hne : a ≠ outputPath) :
    a ∈ (runFfmpegRemux fast tolerant outputPath files).1 := by
  simp only [runFfmpegRemux]
  split_ifs <;>
    first
      | exact mem_addFile_of_mem _ ha
      | exact mem_addFile_of_mem _ (mem_removeFile_iff.mpr ⟨mem_addFile_of_mem _ ha, hne⟩)
      | exact mem_addFile_of_mem _ (mem_removeFile_iff.mpr ⟨ha, hne⟩)
      | exact mem_removeFile_iff.mpr ⟨mem_addFile_of_mem _ ha, hne⟩
      | exact mem_removeFile_iff.mpr ⟨ha, hne⟩

/-- `runFfmpegRemux` reports success exactly when one of the two attempts
succeeded. -/
theorem runFfmpegRemux_snd (fast tolerant : FfmpegAttempt) (outputPath : String)
    (files : List String) :
    (runFfmpegRemux fast tolerant outputPath files).2
      = (fast.succeeds || tolerant.succeeds) := by
  simp only [runFfmpegRemux]
  split_ifs with hf ht <;> simp_all

/-- After a successful `runFfmpegRemux` the destination file exists. -/
theorem runFfmpegRemux_mem_of_success (fast tolerant : FfmpegAttempt) (outputPath : String)
    (files : List String)
    (h : (runFfmpegRemux fast tolerant outputPath files).2 = true) :
    outputPath ∈ (runFfmpegRemux fast tolerant outputPath files).1 := by
  simp only [runFfmpegRemux] at h ⊢
  split_ifs at h ⊢ <;> exact mem_addFile_self ..

/-- C6: remuxing never deletes the original recording: when both the fast and
the tolerant attempt fail, the original file still exists and the persisted
session output path is unchanged; when an attempt succeeds, the persisted
session output path becomes the fresh `.mp4` path, that file exists, and the
original is deleted — exactly one of the two files survives.  The freshness
hypothesis is the postcondition of the search loop of `resolveUniquePath`
(daemon.ts:376-382), whose candidates are tried until one does not exist. -/
theorem postprocessRecordingToMp4_file_safety
    (fast tolerant : FfmpegAttempt) (outputPath : String) (s : RecordingFsState)
    (horig : outputPath ∈ s.files)
    (hfresh : resolveUniquePath (replaceWithMp4Extension outputPath) s.files ∉ s.files) :
    (fast.succeeds = false → tolerant.succeeds = false →
        outputPath ∈ (postprocessRecordingToMp4 fast tolerant outputPath s).files ∧
        (postprocessRecordingToMp4 fast tolerant outputPath s).sessionOutput
          = s.sessionOutput) ∧
    (fast.succeeds = true ∨ tolerant.succeeds = true →
        (postprocessRecordingToMp4 fast tolerant outputPath s).sessionOutput
            = resolveUniquePath (replaceWithMp4Extension outputPath) s.files ∧
        resolveUniquePath (replaceWithMp4Extension outputPath) s.files
            ∈ (postprocessRecordingToMp4 fast tolerant outputPath s).files ∧
        outputPath ∉ (postprocessRecordingToMp4 fast tolerant outputPath s).files) := by
  have hne : outputPath ≠ resolveUniquePath (replaceWithMp4Extension outputPath) s.files :=
    fun h => hfresh (h ▸ horig)
  have hsnd := runFfmpegRemux_snd fast tolerant
    (resolveUniquePath (replaceWithMp4Extension outputPath) s.files) s.files
  unfold postprocessRecordingToMp4
  rw [if_pos horig]
  rcases hr : runFfmpegRemux fast tolerant
      (resolveUniquePath (replaceWithMp4Extension outputPath) s.files) s.files
    with ⟨files2, ok⟩
  rw [hr] at hsnd
  cases ok with
  | false =>
    simp only [hr]
    refine ⟨fun hf ht => ?_, fun hsucc => ?_⟩
    · constructor
      · have := runFfmpegRemux_mem_other fast tolerant
          (resolveUniquePath (replaceWithMp4Extension outputPath) s.files) s.files horig hne
        rw [hr] at this
        exact this
      · trivial
    · exfalso
      rcases hsucc with h | h <;> simp [h] at hsnd
  | true =>
    simp only [hr]
    refine ⟨fun hf ht => ?_, fun hsucc => ?_⟩
    · exfalso
      rw [hf, ht] at hsnd
      simp at hsnd
    · refine ⟨trivial, ?_, ?_⟩
      · have := runFfmpegRemux_mem_of_success fast tolerant
          (resolveUniquePath (replaceWithMp4Extension outputPath) s.files) s.files
          (by rw [hr])
        rw [hr] at this
        exact mem_removeFile_iff.mpr ⟨this, fun h => hne h.symm⟩
      · intro hmem
        exact (mem_removeFile_iff.mp hmem).2 rfl

/-- C6 witness: a recording at "rec.ts" on a filesystem containing only that
file; the fresh remux destination evaluates to "rec.mp4". -/
theorem postprocessRecordingToMp4_file_safety_witness :
    ("rec.ts" ∈ (["rec.ts"] : List String)) ∧
      ((⟨false, true⟩ : FfmpegAttempt).succeeds = false →
          (⟨true, false⟩ : FfmpegAttempt).succeeds = false →
          "rec.ts" ∈ (postprocessRecordingToMp4 ⟨false, true⟩ ⟨true, false⟩ "rec.ts"
              ⟨["rec.ts"], "rec.ts"⟩).files ∧
          (postprocessRecordingToMp4 ⟨false, true⟩ ⟨true, false⟩ "rec.ts"
              ⟨["rec.ts"], "rec.ts"⟩).sessionOutput
            = (⟨["rec.ts"], "rec.ts"⟩ : RecordingFsState).sessionOutput) ∧
      ((⟨false, true⟩ : FfmpegAttempt).succeeds = true ∨
          (⟨true, false⟩ : FfmpegAttempt).succeeds = true →
          (postprocessRecordingToMp4 ⟨false, true⟩ ⟨true, false⟩ "rec.ts"
              ⟨["rec.ts"], "rec.ts"⟩).sessionOutput
              = resolveUniquePath (replaceWithMp4Extension "rec.ts") ["rec.ts"] ∧
          resolveUniquePath (replaceWithMp4Extension "rec.ts") ["rec.ts"]
              ∈ (postprocessRecordingToMp4 ⟨false, true⟩ ⟨true, false⟩ "rec.ts"
              ⟨["rec.ts"], "rec.ts"⟩).files ∧
          "rec.ts" ∉ (postprocessRecordingToMp4 ⟨false, true⟩ ⟨true, false⟩ "rec.ts"
              ⟨["rec.ts"], "rec.ts"⟩).files) :=
  ⟨by decide,
    postprocessRecordingToMp4_file_safety ⟨false, true⟩ ⟨true, false⟩ "rec.ts"
      ⟨["rec.ts"], "rec.ts"⟩ (by decide) (by decide)⟩

/-- The in-memory daemon state relevant to the per-target spawn invariant,
under the event-loop interleaving of one poll pass and one on-demand probe
request: `active` is the key set of the `activeRecordings` map (daemon.ts:36),
`pollWaiting` is the target whose `await this.streamlink.probe(...)`
(daemon.ts:145) a poll pass is currently suspended on — having already passed
the `activeRecordings.has` check of daemon.ts:137 — and `reqWaiting` likewise
for the await in the probe route (daemon.ts:429). `spawnedWhileActive` records
whether some `startRecording` call ever ran for a target that already had an
ActiveRecording in the map at that instant. -/
structure RaceState where
  active : List Nat
  pollWaiting : Option Nat
  reqWaiting : Option Nat
  spawnedWhileActive : Bool
deriving DecidableEq, Repr

/-- The event-loop steps that touch the map: a poll pass reaching the `has`
check for a target and suspending on its probe (daemon.ts:135-145); that probe
resolving live, upon which the pass selects a quality and calls
`startRecording` with no re-check (daemon.ts:146-154); the probe route
suspending on its own probe (daemon.ts:428-429); that probe resolving live,
upon which the route re-checks the map before spawning (daemon.ts:430-433);
and a recording subprocess exiting (daemon.ts:222). -/
inductive RaceEvent where
  | pollCheck (t : Nat)
  | pollProbeLive
  | reqStart (t : Nat)
  | reqProbeLive
  | childExit (t : Nat)
deriving DecidableEq, Repr

/-- Models `startRecording` (daemon.ts:166-214) at the level of the map key
set: `activeRecordings.set(target.id, record)` inserts the id (overwriting any
existing entry), and the flag records whether an entry for the id already
existed — `startRecording` itself performs no such check. -/
def startRecordingStep (t : Nat) (s : RaceState) : RaceState :=
  { s with
      active := if t ∈ s.active then s.active else t :: s.active
      spawnedWhileActive := s.spawnedWhileActive || t ∈ s.active }

/-- One cooperative-scheduling step of the daemon (no step is interrupted:
code between two awaits runs atomically, which is the event-loop model of
spec section 5). -/
def raceStep (s : RaceState) : RaceEvent → RaceState
  | .pollCheck t =>
    if s.pollWaiting.isSome then s
    else if t ∈ s.active then s
    else { s with pollWaiting := some t }
  | .pollProbeLive =>
    match s.pollWaiting with
    | some t => startRecordingStep t { s with pollWaiting := none }
    | none => s
  | .reqStart t =>
    if s.reqWaiting.isSome then s else { s with reqWaiting := some t }
  | .reqProbeLive =>
    match s.reqWaiting with
    | some t =>
      if t ∈ s.active then { s with reqWaiting := none }
      else startRecordingStep t { s with reqWaiting := none }
    | none => s
  | .childExit t => { s with active := s.active.erase t }

/-- A run of the daemon model from the empty startup state (the in-memory map
is reconstructed empty on every start, daemon.ts:36). -/
def raceRun (events : List RaceEvent) : RaceState :=
  events.foldl raceStep
    { active := [], pollWaiting := none, reqWaiting := none, spawnedWhileActive := false }

/-- C1 (violating interleaving): a poll pass passes the `has` check for target
1 and suspends on its probe; an on-demand probe for the same target then
completes and spawns a recording (after this prefix target 1 is active); when
the probe awaited by the poll finally resolves live, the pass calls `startRecording` for
target 1 without re-checking the map, spawning while an ActiveRecording for
that id already exists. -/
theorem poll_probe_same_target_race :
    (raceRun [.pollCheck 1, .reqStart 1, .reqProbeLive]).active = [1] ∧
      (raceRun [.pollCheck 1, .reqStart 1, .reqProbeLive,
          .pollProbeLive]).spawnedWhileActive = true := by
  refine ⟨rfl, rfl⟩

/-- Prefix test at the code-unit level; models `String.prototype.startsWith`. -/
def jsStartsWith (s pre : String) : Bool := pre.data.isPrefixOf s.data

/-- Models `url.slice(n)` for a nonnegative `n`. -/
def jsSliceFrom (s : String) (n : Nat) : String := ⟨s.data.drop n⟩

/-- Models `Number.parseInt(s, 10)` for inputs whose value is exactly
representable as an integer: leading whitespace is skipped, an optional sign
is read, then a maximal run of decimal digits; no digits yields NaN, encoded
here as `none` (and `Number.isInteger(NaN)` is false). -/
def jsParseInt10 (s : String) : Option Int :=
  let l := s.data.dropWhile isJsWs
  match l with
  | '-' :: rest =>
    let ds := rest.takeWhile isDigitChar
    if ds.isEmpty then none else some (-(digitsToNat ds : Int))
  | '+' :: rest =>
    let ds := rest.takeWhile isDigitChar
    if ds.isEmpty then none else some ((digitsToNat ds : Int))
  | _ =>
    let ds := l.takeWhile isDigitChar
    if ds.isEmpty then none else some ((digitsToNat ds : Int))

/-- The collaborator behaviour that determines a control-plane status code:
whether `db.getTargetById` finds its row — it throws `NotFoundError` otherwise
(db client, part_001:184-190) — and whether the `/reload` body succeeds; an
exception escaping a handler is answered with status 500 by the server wrapper
(daemon.ts:57-64). -/
structure ControlPlaneEnv where
  token : String
  targetFound : Bool
  reloadOk : Bool
deriving DecidableEq, Repr

/-- Models `authorize` (daemon.ts:449-455): an absent (or empty, hence falsy)
header is rejected; otherwise the header must equal "Bearer " followed by the
in-memory token. -/
def authorize (header : Option String) (token : String) : Bool :=
  match header with
  | none => false
  | some h => if h = "" then false else h == "Bearer " ++ token

/-- Models `handleRequest` (daemon.ts:385-447) down to the response status
code; `methodOpt`/`urlOpt` are `req.method`/`req.url` with their `?? "GET"`
and `?? "/"` defaults, and handler exceptions become 500 via the server
wrapper (daemon.ts:57-64). The probe route parses the path remainder with
`Number.parseInt(_, 10)` and rejects non-positive or unparseable ids with 400
(daemon.ts:420-427); otherwise it looks the target up, probes it (which never
throws, adapter.ts:23-60) and answers 200 with the probe result. -/
def handleRequest (env : ControlPlaneEnv) (header : Option String)
    (methodOpt urlOpt : Option String) : Nat :=
  if !authorize header env.token then 401
  else
    let method := methodOpt.getD "GET"
    let url := urlOpt.getD "/"
    if method = "GET" ∧ url = "/v1/status" then 200
    else if method = "POST" ∧ url = "/v1/reload" then
      (if env.reloadOk then 200 else 500)
    else if method = "GET" ∧ url = "/v1/recordings" then 200
    else if method = "POST" ∧ jsStartsWith url "/v1/probe/" then
      match jsParseInt10 (jsSliceFrom url ("/v1/probe/".length)) with
      | none => 400
      | some n => if n ≤ 0 then 400 else (if env.targetFound then 200 else 500)
    else if method = "POST" ∧ url = "/v1/shutdown" then 200
    else 404

/-- C8: a request whose Authorization header is absent or differs from
"Bearer " followed by the in-memory token is answered 401, whatever the
method and url (matched routes and unmatched ones alike). -/
theorem control_plane_unauthorized_401 (env : ControlPlaneEnv) (header : Option String)
    (methodOpt urlOpt : Option String)
    (h : header = none ∨ ∃ v, header = some v ∧ v ≠ "Bearer " ++ env.token) :
    handleRequest env header methodOpt urlOpt = 401 := by
  have hauth : authorize header env.token = false := by
    rcases h with rfl | ⟨v, rfl, hv⟩
    · rfl
    · unfold authorize
      by_cases hv0 : v = ""
      · simp [hv0]
      · simp [hv0, hv]
  unfold handleRequest
  rw [hauth]
  rfl

/-- C8 witness: a wrong bearer token on a matched route is answered 401. -/
theorem control_plane_unauthorized_401_witness :
    handleRequest ⟨"secret", true, true⟩ (some "Bearer wrong") (some "GET")
      (some "/v1/status") = 401 :=
  control_plane_unauthorized_401 ⟨"secret", true, true⟩ (some "Bearer wrong")
    (some "GET") (some "/v1/status")
    (Or.inr ⟨"Bearer wrong", rfl, by decide⟩)

/-- C9 counterexample: the path segment "12abc" is not the decimal
representation of a positive integer (it is not even all digits), yet the
authorized probe request is answered 200, not 400, because
`Number.parseInt("12abc", 10)` is 12. -/
theorem probe_route_id_claim_false :
    ("12abc".data.all isDigitChar = false) ∧
      handleRequest ⟨"tok", true, true⟩ (some "Bearer tok") (some "POST")
        (some "/v1/probe/12abc") = 200 := by
  refine ⟨by decide, by decide⟩

/-- A string starts with any string it extends. -/
theorem jsStartsWith_append (pre s : String) : jsStartsWith (pre ++ s) pre = true := by
  unfold jsStartsWith
  rw [String.data_append]
  exact List.isPrefixOf_iff_prefix.mpr (List.prefix_append _ _)

/-- Slicing off a prefix leaves the rest. -/
theorem jsSliceFrom_append (pre s : String) : jsSliceFrom (pre ++ s) pre.length = s := by
  unfold jsSliceFrom
  rw [String.data_append]
  have hl : pre.length = pre.data.length := rfl
  rw [hl, List.drop_left]

/-- C9 (amended): an authorized POST to /v1/probe/{idRaw} is answered 400
exactly when `Number.parseInt(idRaw, 10)` does not yield a positive integer —
so a segment whose leading digits parse, such as "12abc", is accepted even
though it is not the decimal representation of a positive integer. -/
theorem probe_route_400_iff (env : ControlPlaneEnv) (header : Option String)
    (idRaw : String) (hauth : authorize header env.token = true) :
    (handleRequest env header (some "POST") (some ("/v1/probe/" ++ idRaw)) = 400
      ↔ ¬ ∃ n, jsParseInt10 idRaw = some n ∧ 0 < n) := by
  have hdata : ("/v1/probe/" ++ idRaw).data
      = '/' :: 'v' :: '1' :: '/' :: 'p' :: 'r' :: 'o' :: 'b' :: 'e' :: '/' :: idRaw.data := by
    rw [String.data_append]; rfl
  have hne1 : ¬ ("/v1/probe/" ++ idRaw) = "/v1/reload" := by
    intro h
    have hd := congrArg String.data h
    rw [hdata] at hd
    simp at hd
  have hcond : (!authorize header env.token) = false := by rw [hauth]; rfl
  unfold handleRequest
  rw [hcond]
  simp only [Bool.false_eq_true, if_false, Option.getD_some]
  rw [if_neg (fun h => absurd h.1 (by decide))]
  rw [if_neg (fun h => hne1 h.2)]
  rw [if_neg (fun h => absurd h.1 (by decide))]
  rw [if_pos ⟨trivial, jsStartsWith_append "/v1/probe/" idRaw⟩]
  rw [jsSliceFrom_append]
  cases hp : jsParseInt10 idRaw with
  | none => simp
  | some n =>
    dsimp only
    by_cases hn : n ≤ 0
    · rw [if_pos hn]
      simp only [eq_self_iff_true, true_iff]
      rintro ⟨m, hm, hm0⟩
      rw [Option.some.injEq] at hm
      omega
    · rw [if_neg hn]
      constructor
      · intro h400
        exfalso
        cases henv : env.targetFound <;> simp [henv] at h400
      · intro hno
        exfalso
        exact hno ⟨n, rfl, by omega⟩

/-- C9 amended-theorem witness: an authorized probe of "/v1/probe/0x10" (which
`Number.parseInt(_, 10)` reads as 0) is answered 400, matching the iff. -/
theorem probe_route_400_iff_witness :
    authorize (some "Bearer tok") "tok" = true ∧
      (handleRequest ⟨"tok", true, true⟩ (some "Bearer tok") (some "POST")
          (some ("/v1/probe/" ++ "0x10")) = 400
        ↔ ¬ ∃ n, jsParseInt10 "0x10" = some n ∧ 0 < n) :=
  ⟨by decide,
    probe_route_400_iff ⟨"tok", true, true⟩ (some "Bearer tok") "0x10" (by decide)⟩

end StreamRecorder
